import Mathlib

/-!
Shallow embedding of the Gen2 Repair API core (`app/models.py`, `app/schemas.py`,
`app/crud.py`, `app/main.py`) and proofs about its consistency rules.

Conventions of the embedding:
* SQLAlchemy rows become Lean structures; a table becomes a `List` of rows.
* Pydantic payload fields with `exclude_unset` semantics are modelled as
  `Option (Option α)`: the outer layer is "was the field set in the payload",
  the inner layer is the nullable column value.
* `datetime.utcnow()` is passed in explicitly (`now : Nat` for timestamps,
  `(y, m, d)` for the date used by `strftime`), and the random bytes drawn by
  `secrets.token_hex(3)` are passed as a `List (Fin 256)`.
* Functions that can raise a Python exception or a database constraint error
  return `Except String _`.
-/

namespace Gen2Repair

/-- The `RepairStatus` enumeration of `models.py`. -/
inductive RepairStatus where
  | Operational
  | Operational_with_Limitation
  | Pending_Parts
  | Out_of_Service
deriving DecidableEq, Repr

/-- The `Subsystem` enumeration of `models.py`. -/
inductive Subsystem where
  | Ilmor | ICU | HMI_Box | Kitbox | Orca | Battery | PDB | MPPT
  | Camera | Radar | Compass | LTE_Starlink | Harness_Cabling | Other
deriving DecidableEq, Repr

/-- A row of the `vessels` table. -/
structure Vessel where
  id : Nat
  hull_id : String
  notes : Option String := none
deriving DecidableEq, Repr

/-- A row of the `repairs` table.  Dates are ISO `YYYY-MM-DD` strings, which
order exactly as the underlying calendar dates do. -/
structure Repair where
  id : Nat
  repair_uid : String
  vessel_id : Nat
  location : Option String := none
  date_opened : String
  ticket : Option String := none
  technicians : Option String := none
  program : Option String := none
  service_type : Option String := none
  root_cause_cat : Option String := none
  issue_desc : Option String := none
  root_cause_details : Option String := none
  wiring_notes : Option String := none
  structural_notes : Option String := none
  verification_notes : Option String := none
  final_status : Option RepairStatus := none
  limitations : Option String := none
  snapshot_ilmor_sn : Option String := none
  snapshot_ilmor_fw : Option String := none
  snapshot_icu_sn : Option String := none
  snapshot_orca_sn : Option String := none
  snapshot_battery_sns : Option String := none
  snapshot_camera : Option String := none
  snapshot_radar : Option Bool := none
  snapshot_compass : Option Bool := none
  snapshot_two_battery : Option Bool := none
deriving DecidableEq, Repr

/-- A row of the `component_changes` table. -/
structure ComponentChange where
  id : Nat
  repair_id : Nat
  subsystem : Subsystem
  component : String
  old_serial : Option String := none
  new_serial : Option String := none
  old_fw : Option String := none
  new_fw : Option String := none
  reason : Option String := none
  performed_by : Option String := none
  change_date : Option String := none
deriving DecidableEq, Repr

/-- A row of the `config_changes` table. -/
structure ConfigChange where
  id : Nat
  repair_id : Nat
  system : String
  parameter : String
  old_value : Option String := none
  new_value : Option String := none
  reason : Option String := none
deriving DecidableEq, Repr

/-- A row of the `checklist_items` catalog table. -/
structure ChecklistItem where
  id : Nat
  code : String
  label : String := ""
  sort_order : Int := 0
  active : Bool := true
deriving DecidableEq, Repr

/-- A row of the `repair_checklist` join table (primary key `(repair_id, item_id)`). -/
structure RepairChecklistRow where
  repair_id : Nat
  item_id : Nat
  checked : Bool
  checked_at : Option Nat
deriving DecidableEq, Repr

/-- The `RepairSnapshot` pydantic model used inside `RepairUpdate`; every field
is `Option (Option _)`: unset vs. set-to-null vs. set-to-value. -/
structure SnapPayload where
  ilmor_sn : Option (Option String) := none
  ilmor_fw : Option (Option String) := none
  icu_sn : Option (Option String) := none
  orca_sn : Option (Option String) := none
  battery_sns : Option (Option String) := none
  camera : Option (Option String) := none
  radar : Option (Option Bool) := none
  compass : Option (Option Bool) := none
  two_battery : Option (Option Bool) := none
deriving DecidableEq, Repr

/-- True when `model_dump(exclude_unset=True)` of this sub-model is the empty
dict, i.e. no snapshot field was explicitly set. -/
def SnapPayload.dumpIsEmpty (s : SnapPayload) : Bool :=
  s.ilmor_sn.isNone && s.ilmor_fw.isNone && s.icu_sn.isNone && s.orca_sn.isNone &&
  s.battery_sns.isNone && s.camera.isNone && s.radar.isNone && s.compass.isNone &&
  s.two_battery.isNone

/-- The `RepairUpdate` pydantic model (partial-update payload). -/
structure RepairUpdate where
  location : Option (Option String) := none
  ticket : Option (Option String) := none
  technicians : Option (Option String) := none
  program : Option (Option String) := none
  service_type : Option (Option String) := none
  root_cause_cat : Option (Option String) := none
  issue_desc : Option (Option String) := none
  root_cause_details : Option (Option String) := none
  wiring_notes : Option (Option String) := none
  structural_notes : Option (Option String) := none
  verification_notes : Option (Option String) := none
  final_status : Option (Option RepairStatus) := none
  limitations : Option (Option String) := none
  snapshot : Option (Option SnapPayload) := none
deriving DecidableEq, Repr

/-- The `RepairCreate` pydantic model. -/
structure RepairCreate where
  hull_id : String
  date_opened : String
  location : Option String := none
  ticket : Option String := none
  technicians : Option String := none
  program : Option String := none
  service_type : Option String := none
  root_cause_cat : Option String := none
  issue_desc : Option String := none
deriving DecidableEq, Repr

/-- The persistent store visible to vessel / repair operations. -/
structure Store where
  vessels : List Vessel := []
  repairs : List Repair := []
  next_vessel_id : Nat := 1
  next_repair_id : Nat := 1
deriving DecidableEq, Repr

/-- `setattr(rep, k, v)` for one column: a payload field that was set
overwrites the column, an unset field leaves it alone. -/
def applyField {α : Type} (cur : Option α) (upd : Option (Option α)) : Option α :=
  match upd with
  | none => cur
  | some v => v

/-- The `for k, v in data.items(): setattr(rep, k, v)` loop of
`crud.update_repair` over the thirteen top-level updatable columns
(`snapshot` has been popped out of `data` beforehand). -/
def applyTopFields (rep : Repair) (p : RepairUpdate) : Repair :=
  { rep with
    location := applyField rep.location p.location
    ticket := applyField rep.ticket p.ticket
    technicians := applyField rep.technicians p.technicians
    program := applyField rep.program p.program
    service_type := applyField rep.service_type p.service_type
    root_cause_cat := applyField rep.root_cause_cat p.root_cause_cat
    issue_desc := applyField rep.issue_desc p.issue_desc
    root_cause_details := applyField rep.root_cause_details p.root_cause_details
    wiring_notes := applyField rep.wiring_notes p.wiring_notes
    structural_notes := applyField rep.structural_notes p.structural_notes
    verification_notes := applyField rep.verification_notes p.verification_notes
    final_status := applyField rep.final_status p.final_status
    limitations := applyField rep.limitations p.limitations }

/-- `crud.update_repair`.  `data = payload.model_dump(exclude_unset=True)`
turns the nested `snapshot` sub-model into a plain dict, so
`snap = data.pop("snapshot", None)` is a dict; when that dict is non-empty the
function proceeds to read `snap.ilmor_sn` — an attribute access on a dict —
which raises `AttributeError`, the session is never flushed and the caller
never commits.  When `snapshot` is unset, set to null, or dumps to the empty
dict, only the plain `setattr` loop runs and the update succeeds. -/
def update_repair (rep : Repair) (p : RepairUpdate) : Except String Repair :=
  let rep2 := applyTopFields rep p
  match p.snapshot with
  | none => Except.ok rep2
  | some none => Except.ok rep2
  | some (some sp) =>
      if sp.dumpIsEmpty then Except.ok rep2
      else Except.error ("AttributeError: dict object has no attribute ilmor_sn")

/-- `crud.get_or_create_vessel`: look the vessel up by hull id; when absent,
insert a fresh row (notes default to null) and return it. -/
def get_or_create_vessel (s : Store) (hull : String) : Vessel × Store :=
  match s.vessels.find? (fun v => v.hull_id == hull) with
  | some v => (v, s)
  | none =>
      let v : Vessel := { id := s.next_vessel_id, hull_id := hull, notes := none }
      (v, { s with vessels := s.vessels ++ [v], next_vessel_id := s.next_vessel_id + 1 })

/-- Lexicographic comparison of character lists by code point; on ISO
`YYYY-MM-DD` strings this is exactly the calendar-date order the database's
`Date` comparison uses. -/
def charsLe : List Char → List Char → Bool
  | [], _ => true
  | _ :: _, [] => false
  | a :: as, b :: bs =>
      if a.toNat < b.toNat then true
      else if b.toNat < a.toNat then false
      else charsLe as bs

/-- Date order on the ISO date strings of the embedding. -/
def strLe (a b : String) : Bool := charsLe a.data b.data

/-- Python truthiness of an optional query-string parameter: `None` and the
empty string are falsy (`if hull_id:` in `crud.list_repairs`). -/
def optFilter (p : String → Bool) : Option String → Bool
  | none => true
  | some s => bif s == "" then true else p s

/-- The `q.join(Vessel).where(Vessel.hull_id == hull_id)` inner join: the
repair is kept when its vessel row exists and has the requested hull id. -/
def vesselHullMatch (vessels : List Vessel) (h : String) (r : Repair) : Bool :=
  vessels.any (fun v => v.id == r.vessel_id && v.hull_id == h)

/-- The WHERE clause assembled by `crud.list_repairs` from the three optional
filters (each applied only when the parameter is truthy). -/
def listFilterPred (vessels : List Vessel) (hull_id date_from date_to : Option String)
    (r : Repair) : Bool :=
  optFilter (fun h => vesselHullMatch vessels h r) hull_id &&
  optFilter (fun a => strLe a r.date_opened) date_from &&
  optFilter (fun b => strLe r.date_opened b) date_to

/-- `ORDER BY date_opened DESC` as a relation on repair rows. -/
def dateDesc (a b : Repair) : Prop := strLe b.date_opened a.date_opened = true

instance : DecidableRel dateDesc :=
  fun a b => inferInstanceAs (Decidable (strLe b.date_opened a.date_opened = true))

/-- `crud.list_repairs`: SQL semantics of the assembled query — filter by the
WHERE clauses, order descending by open date, apply LIMIT. -/
def list_repairs (s : Store) (hull_id date_from date_to : Option String) (limit : Nat) :
    List Repair :=
  (List.insertionSort dateDesc
    (s.repairs.filter (listFilterPred s.vessels hull_id date_from date_to))).take limit

/-- The `GET /repairs` handler of `main.py`: the `limit` query parameter
defaults to 50 when absent. -/
def main_list_repairs (s : Store) (hull_id date_from date_to : Option String)
    (limit : Option Nat) : List Repair :=
  list_repairs s hull_id date_from date_to (limit.getD 50)

/-- `datetime.utcnow().strftime("%Y%m%d")`: the date zero-padded to 8 digits. -/
def strftimeYmd (y m d : Nat) : String :=
  ⟨[Nat.digitChar (y / 1000 % 10), Nat.digitChar (y / 100 % 10),
    Nat.digitChar (y / 10 % 10), Nat.digitChar (y % 10),
    Nat.digitChar (m / 10 % 10), Nat.digitChar (m % 10),
    Nat.digitChar (d / 10 % 10), Nat.digitChar (d % 10)]⟩

/-- `secrets.token_hex(3)`: each random byte printed as two lowercase hex
digits; the bytes themselves are an explicit input of the embedding. -/
def token_hex (bs : List (Fin 256)) : String :=
  ⟨bs.foldr (fun b acc => Nat.digitChar (b.val / 16) :: Nat.digitChar (b.val % 16) :: acc) []⟩

/-- Python `str.upper()` on the ASCII strings produced here. -/
def strUpper (s : String) : String := ⟨s.data.map Char.toUpper⟩

/-- `crud._new_repair_uid`: `REP-<YYYYMMDD>-<6 uppercase hex chars>`. -/
def new_repair_uid (y m d : Nat) (bs : List (Fin 256)) : String :=
  "REP-" ++ strftimeYmd y m d ++ "-" ++ strUpper (token_hex bs)

/-- `crud.create_repair` followed by the session flush: resolves the vessel,
generates the uid, inserts the row; the `repair_uid` UNIQUE constraint of
`models.Repair` makes the flush fail on a duplicate uid. -/
def mk_repair_row (vessel : Vessel) (s1 : Store) (p : RepairCreate) (uid : String) :
    Repair :=
  { id := s1.next_repair_id, repair_uid := uid,
    vessel_id := vessel.id, date_opened := p.date_opened, location := p.location,
    ticket := p.ticket, technicians := p.technicians, program := p.program,
    service_type := p.service_type, root_cause_cat := p.root_cause_cat,
    issue_desc := p.issue_desc }

def create_repair (s : Store) (p : RepairCreate) (y m d : Nat) (bs : List (Fin 256)) :
    Except String (Repair × Store) :=
  if ((get_or_create_vessel s p.hull_id).2).repairs.any
      (fun r => r.repair_uid == new_repair_uid y m d bs) then
    Except.error ("ConstraintViolation: duplicate repair_uid")
  else
    Except.ok
      (mk_repair_row (get_or_create_vessel s p.hull_id).1 (get_or_create_vessel s p.hull_id).2
         p (new_repair_uid y m d bs),
       { (get_or_create_vessel s p.hull_id).2 with
         repairs := ((get_or_create_vessel s p.hull_id).2).repairs ++
           [mk_repair_row (get_or_create_vessel s p.hull_id).1
              (get_or_create_vessel s p.hull_id).2 p (new_repair_uid y m d bs)]
         next_repair_id := ((get_or_create_vessel s p.hull_id).2).next_repair_id + 1 })

/-- Helper character class: `0-9A-F`, the characters of an uppercased hex digit. -/
def isUpperHexChar (c : Char) : Bool :=
  c.isDigit || (decide ('A' ≤ c) && decide (c ≤ 'F'))

/-- Decidable check of the documented uid format
`REP-<8 digits>-<6 uppercase hex chars>`. -/
def isRepairUidFormat (s : String) : Bool :=
  (s.data.length == 19) &&
  (s.data.take 4 == ("REP-").data) &&
  ((s.data.drop 4).take 8).all Char.isDigit &&
  ((s.data.drop 12).take 1 == ['-']) &&
  ((s.data.drop 13).all isUpperHexChar)

/-- `crud.delete_component_change`: primary-key lookup, delete when found,
report whether a row was removed. -/
def delete_component_change (rows : List ComponentChange) (change_id : Nat) :
    Bool × List ComponentChange :=
  match rows.find? (fun r => r.id == change_id) with
  | none => (false, rows)
  | some _ => (true, rows.eraseP (fun r => r.id == change_id))

/-- `crud.delete_config_change`: same shape as `delete_component_change`. -/
def delete_config_change (rows : List ConfigChange) (change_id : Nat) :
    Bool × List ConfigChange :=
  match rows.find? (fun r => r.id == change_id) with
  | none => (false, rows)
  | some _ => (true, rows.eraseP (fun r => r.id == change_id))

/-- `ORDER BY sort_order ASC` on catalog items. -/
def sortOrderAsc (a b : ChecklistItem) : Prop := a.sort_order ≤ b.sort_order

instance : DecidableRel sortOrderAsc :=
  fun a b => inferInstanceAs (Decidable (a.sort_order ≤ b.sort_order))

/-- `crud.get_checklist_items`: the catalog rows with `active = true`, ordered
ascending by `sort_order`. -/
def get_checklist_items (items : List ChecklistItem) : List ChecklistItem :=
  List.insertionSort sortOrderAsc (items.filter (fun i => i.active))

/-- The `by_code = {i.code: i for i in items}` dict build followed by
`by_code.get(code)`: on duplicate codes the later item wins, absent codes give
`None`. -/
def byCodeGet (items : List ChecklistItem) (code : String) : Option ChecklistItem :=
  items.foldl (fun acc i => bif i.code == code then some i else acc) none

/-- Does this checklist row have the given `(repair_id, item_id)` primary key? -/
def hasPk (repId itemId : Nat) (r : RepairChecklistRow) : Bool :=
  r.repair_id == repId && r.item_id == itemId

/-- One iteration of the loop body of `crud.upsert_repair_checklist` for a
known catalog item: `db.get(RepairChecklist, pk)` then insert-or-overwrite,
with `checked_at` recomputed from the submitted value. -/
def upsertOne (repId now : Nat) (rows : List RepairChecklistRow) (itemId : Nat)
    (checked : Bool) : List RepairChecklistRow :=
  if rows.any (hasPk repId itemId) then
    rows.map (fun r =>
      bif hasPk repId itemId r then
        { r with checked := checked, checked_at := if checked then some now else none }
      else r)
  else
    rows ++ [{ repair_id := repId, item_id := itemId, checked := checked,
               checked_at := if checked then some now else none }]

/-- `crud.upsert_repair_checklist`: build the code→item dict from the whole
catalog (no `active` filter), then fold the submitted `(code, checked)` pairs,
silently skipping codes absent from the catalog. -/
def upsert_repair_checklist (items : List ChecklistItem) (repId : Nat)
    (states : List (String × Bool)) (now : Nat) (rows : List RepairChecklistRow) :
    List RepairChecklistRow :=
  states.foldl (fun acc st =>
    match byCodeGet items st.1 with
    | none => acc
    | some item => upsertOne repId now acc item.id st.2) rows

/-! Concrete fixtures used to instantiate the theorems below. -/

/-- An empty initial store. -/
def store0 : Store := {}

/-- A repair whose snapshot already records a radar and a camera. -/
def c1Repair : Repair :=
  { id := 1, repair_uid := "REP-20240110-00AA11", vessel_id := 1,
    date_opened := "2024-01-10", snapshot_radar := some true,
    snapshot_camera := some ("CAM-1") }

/-- An update payload whose snapshot sub-object sets only `compass`. -/
def c1Payload : RepairUpdate :=
  { snapshot := some (some { compass := some (some true) }) }

/-- A repair located in Miami. -/
def c3Repair : Repair :=
  { id := 2, repair_uid := "REP-20240105-0BEEF0", vessel_id := 1,
    date_opened := "2024-01-05", location := some ("Miami") }

/-- A payload setting `ticket` together with a non-empty snapshot sub-object. -/
def c3PayloadBad : RepairUpdate :=
  { ticket := some (some ("T-1")), snapshot := some (some { compass := some (some true) }) }

/-- A payload setting only `ticket`. -/
def c3PayloadGood : RepairUpdate :=
  { ticket := some (some ("T-1")) }

/-- A creation payload. -/
def c4Payload : RepairCreate := { hull_id := "R132", date_opened := "2024-01-15" }

/-- One possible draw of `secrets.token_hex(3)`. -/
def bytesA : List (Fin 256) := [10, 188, 95]

/-- A different draw of `secrets.token_hex(3)`. -/
def bytesB : List (Fin 256) := [0, 0, 0]

/-- An active catalog item with code `A`. -/
def itemA : ChecklistItem := { id := 1, code := "A" }

/-- An inactive catalog item with code `B`. -/
def itemB : ChecklistItem := { id := 2, code := "B", active := false }

/-- A component-change table with a single row (id 7). -/
def compEx : List ComponentChange :=
  [{ id := 7, repair_id := 1, subsystem := Subsystem.Ilmor, component := "motor" }]

/-- A config-change table with a single row (id 9). -/
def confEx : List ConfigChange :=
  [{ id := 9, repair_id := 1, system := "ICU", parameter := "p1" }]

/-- A vessel with hull id `R132`. -/
def c7Vessel : Vessel := { id := 1, hull_id := "R132" }

/-- A repair opened on the last day of January 2024. -/
def c7RepJan : Repair :=
  { id := 1, repair_uid := "REP-20240131-000001", vessel_id := 1,
    date_opened := "2024-01-31" }

/-- A repair opened on the first day of February 2024. -/
def c7RepFeb : Repair :=
  { id := 2, repair_uid := "REP-20240201-000002", vessel_id := 1,
    date_opened := "2024-02-01" }

/-- A store holding one vessel and the two repairs above. -/
def c7Store : Store :=
  { vessels := [c7Vessel], repairs := [c7RepJan, c7RepFeb],
    next_vessel_id := 2, next_repair_id := 3 }

/-! Helper lemmas. -/

theorem goc_fst_hull_id (s : Store) (h : String) :
    ((get_or_create_vessel s h).1).hull_id = h := by
  unfold get_or_create_vessel
  cases hf : s.vessels.find? (fun v => v.hull_id == h) with
  | none => rfl
  | some v =>
      have hp := List.find?_some hf
      simpa using hp

theorem goc_snd_repairs (s : Store) (h : String) :
    ((get_or_create_vessel s h).2).repairs = s.repairs := by
  unfold get_or_create_vessel
  cases hf : s.vessels.find? (fun v => v.hull_id == h) with
  | none => rfl
  | some v => rfl

/-- C6: `getOrCreateVessel` is an idempotent lookup-or-create: a second call
with the same hull id returns the same vessel and leaves the store unchanged
(no duplicate row, no error); calls with two different hull ids return two
distinct vessels; when the hull id is absent the created vessel has empty
notes. -/
theorem c6_get_or_create_vessel (s : Store) (h1 h2 : String) :
    get_or_create_vessel (get_or_create_vessel s h1).2 h1 =
      ((get_or_create_vessel s h1).1, (get_or_create_vessel s h1).2) ∧
    (h1 ≠ h2 →
      (get_or_create_vessel (get_or_create_vessel s h1).2 h2).1 ≠
        (get_or_create_vessel s h1).1) ∧
    (s.vessels.find? (fun v => v.hull_id == h1) = none →
      ((get_or_create_vessel s h1).1).notes = none) := by
  refine ⟨?_, ?_, ?_⟩
  · cases hf : s.vessels.find? (fun v => v.hull_id == h1) with
    | some v =>
        simp only [get_or_create_vessel, hf]
    | none =>
        simp only [get_or_create_vessel, hf]
        rw [List.find?_append, hf]
        simp
  · intro hne heq
    have e1 := goc_fst_hull_id (get_or_create_vessel s h1).2 h2
    have e2 := goc_fst_hull_id s h1
    rw [heq, e2] at e1
    exact hne e1
  · intro hf
    simp only [get_or_create_vessel, hf]

theorem c6_get_or_create_vessel_witness :
    get_or_create_vessel (get_or_create_vessel store0 ("R1")).2 ("R1") =
      ((get_or_create_vessel store0 ("R1")).1, (get_or_create_vessel store0 ("R1")).2) ∧
    (get_or_create_vessel (get_or_create_vessel store0 ("R1")).2 ("R2")).1 ≠
      (get_or_create_vessel store0 ("R1")).1 ∧
    ((get_or_create_vessel store0 ("R1")).1).notes = none := by
  have h := c6_get_or_create_vessel store0 ("R1") ("R2")
  exact ⟨h.1, h.2.1 (by decide), h.2.2 rfl⟩

/-- C8: `removeComponentChange` / `removeConfigChange` return whether a row
with the given id was found and removed; on a missing id they return `false`
and leave the table untouched (no error); on a present id they return `true`
and delete exactly one row. -/
theorem c8_delete_changes (comp : List ComponentChange) (conf : List ConfigChange)
    (cid kid : Nat) :
    ((delete_component_change comp cid).1 = comp.any (fun r => r.id == cid)) ∧
    (comp.any (fun r => r.id == cid) = false →
      delete_component_change comp cid = (false, comp)) ∧
    (comp.any (fun r => r.id == cid) = true →
      (delete_component_change comp cid).2.Sublist comp ∧
      (delete_component_change comp cid).2.length + 1 = comp.length) ∧
    ((delete_config_change conf kid).1 = conf.any (fun r => r.id == kid)) ∧
    (conf.any (fun r => r.id == kid) = false →
      delete_config_change conf kid = (false, conf)) ∧
    (conf.any (fun r => r.id == kid) = true →
      (delete_config_change conf kid).2.Sublist conf ∧
      (delete_config_change conf kid).2.length + 1 = conf.length) := by
  refine ⟨?_, ?_, ?_, ?_, ?_, ?_⟩
  · cases hf : comp.find? (fun r => r.id == cid) with
    | none =>
        simp only [delete_component_change, hf]
        symm
        rw [List.any_eq_false]
        exact List.find?_eq_none.mp hf
    | some r =>
        simp only [delete_component_change, hf]
        symm
        rw [List.any_eq_true]
        have hp := List.find?_some hf
        exact ⟨r, List.mem_of_find?_eq_some hf, hp⟩
  · intro hany
    cases hf : comp.find? (fun r => r.id == cid) with
    | none => simp only [delete_component_change, hf]
    | some r =>
        rw [List.any_eq_false] at hany
        exact absurd (List.find?_some hf)
          (hany r (List.mem_of_find?_eq_some hf))
  · intro hany
    rw [List.any_eq_true] at hany
    obtain ⟨r, hr, hp⟩ := hany
    cases hf : comp.find? (fun x => x.id == cid) with
    | none => exact absurd hp (List.find?_eq_none.mp hf r hr)
    | some r2 =>
        simp only [delete_component_change, hf]
        refine ⟨List.eraseP_sublist _, ?_⟩
        have hp2 : (fun x : ComponentChange => x.id == cid) r = true := hp
        have hl : (comp.eraseP (fun x => x.id == cid)).length = comp.length - 1 :=
          List.length_eraseP_of_mem hr hp2
        have hpos := List.length_pos_of_mem hr
        omega
  · cases hf : conf.find? (fun r => r.id == kid) with
    | none =>
        simp only [delete_config_change, hf]
        symm
        rw [List.any_eq_false]
        exact List.find?_eq_none.mp hf
    | some r =>
        simp only [delete_config_change, hf]
        symm
        rw [List.any_eq_true]
        have hp := List.find?_some hf
        exact ⟨r, List.mem_of_find?_eq_some hf, hp⟩
  · intro hany
    cases hf : conf.find? (fun r => r.id == kid) with
    | none => simp only [delete_config_change, hf]
    | some r =>
        rw [List.any_eq_false] at hany
        exact absurd (List.find?_some hf)
          (hany r (List.mem_of_find?_eq_some hf))
  · intro hany
    rw [List.any_eq_true] at hany
    obtain ⟨r, hr, hp⟩ := hany
    cases hf : conf.find? (fun x => x.id == kid) with
    | none => exact absurd hp (List.find?_eq_none.mp hf r hr)
    | some r2 =>
        simp only [delete_config_change, hf]
        refine ⟨List.eraseP_sublist _, ?_⟩
        have hp2 : (fun x : ConfigChange => x.id == kid) r = true := hp
        have hl : (conf.eraseP (fun x => x.id == kid)).length = conf.length - 1 :=
          List.length_eraseP_of_mem hr hp2
        have hpos := List.length_pos_of_mem hr
        omega

theorem c8_delete_changes_witness :
    delete_component_change compEx 99 = (false, compEx) ∧
    (delete_component_change compEx 7).2.length + 1 = compEx.length ∧
    delete_config_change confEx 99 = (false, confEx) := by
  have h99 := c8_delete_changes compEx confEx 99 99
  have h7 := c8_delete_changes compEx confEx 7 7
  exact ⟨h99.2.1 (by decide), (h7.2.2.1 (by decide)).2, h99.2.2.2.2.1 (by decide)⟩

/-- C1: the claim says `updateRepair` merges a partial `snapshot` sub-object
field by field, preserving omitted snapshot fields.  The code cannot do this:
`model_dump(exclude_unset=True)` turns the sub-object into a dict and the
subsequent attribute reads (`snap.ilmor_sn`, …) raise `AttributeError`, so the
claim's own example input — snapshot `{radar: true, camera: "CAM-1"}` updated
with `{snapshot: {compass: true}}` — errors instead of merging (and had the
fields been read from the sub-model, all nine columns would have been
overwritten unconditionally, clearing `radar` and `camera` to null). -/
theorem c1_snapshot_merge_code_bug :
    update_repair c1Repair c1Payload =
      Except.error ("AttributeError: dict object has no attribute ilmor_sn") := rfl

/-- C3 counterexample: the claim quantifies over every partial-update payload,
but for a payload that combines `{ticket: "T-1"}` with a non-empty snapshot
sub-object the update raises instead of returning the merged repair, so no
updated repair exists at all for this input. -/
theorem c3_update_merge_counterexample :
    ¬ ∃ r : Repair, update_repair c3Repair c3PayloadBad = Except.ok r := by
  rintro ⟨r, h⟩
  rw [show update_repair c3Repair c3PayloadBad =
      Except.error ("AttributeError: dict object has no attribute ilmor_sn") from rfl] at h
  exact Except.noConfusion h

/-- C3 (amended): for every existing repair and every partial-update payload
whose `snapshot` key is unset, set to null, or dumps to the empty dict,
`updateRepair` succeeds and sets exactly the top-level fields present in the
payload, leaving every absent field — and every snapshot column and identity
field — unchanged (merge, not replace).  Payloads with a non-empty snapshot
sub-object instead fail with an `AttributeError`. -/
theorem c3_update_merge (rep : Repair) (p : RepairUpdate)
    (hs : p.snapshot = none ∨ p.snapshot = some none ∨
      ∃ sp, p.snapshot = some (some sp) ∧ sp.dumpIsEmpty = true) :
    ∃ r : Repair, update_repair rep p = Except.ok r ∧
      r.location = p.location.getD rep.location ∧
      r.ticket = p.ticket.getD rep.ticket ∧
      r.technicians = p.technicians.getD rep.technicians ∧
      r.program = p.program.getD rep.program ∧
      r.service_type = p.service_type.getD rep.service_type ∧
      r.root_cause_cat = p.root_cause_cat.getD rep.root_cause_cat ∧
      r.issue_desc = p.issue_desc.getD rep.issue_desc ∧
      r.root_cause_details = p.root_cause_details.getD rep.root_cause_details ∧
      r.wiring_notes = p.wiring_notes.getD rep.wiring_notes ∧
      r.structural_notes = p.structural_notes.getD rep.structural_notes ∧
      r.verification_notes = p.verification_notes.getD rep.verification_notes ∧
      r.final_status = p.final_status.getD rep.final_status ∧
      r.limitations = p.limitations.getD rep.limitations ∧
      r.id = rep.id ∧ r.repair_uid = rep.repair_uid ∧
      r.vessel_id = rep.vessel_id ∧ r.date_opened = rep.date_opened ∧
      r.snapshot_ilmor_sn = rep.snapshot_ilmor_sn ∧
      r.snapshot_ilmor_fw = rep.snapshot_ilmor_fw ∧
      r.snapshot_icu_sn = rep.snapshot_icu_sn ∧
      r.snapshot_orca_sn = rep.snapshot_orca_sn ∧
      r.snapshot_battery_sns = rep.snapshot_battery_sns ∧
      r.snapshot_camera = rep.snapshot_camera ∧
      r.snapshot_radar = rep.snapshot_radar ∧
      r.snapshot_compass = rep.snapshot_compass ∧
      r.snapshot_two_battery = rep.snapshot_two_battery := by
  have hgetD : ∀ {α : Type} (cur : Option α) (upd : Option (Option α)),
      applyField cur upd = upd.getD cur := by
    intro α cur upd
    cases upd <;> rfl
  refine ⟨applyTopFields rep p, ?_, ?_⟩
  · rcases hs with h | h | ⟨sp, h, hemp⟩
    · simp [update_repair, h]
    · simp [update_repair, h]
    · simp [update_repair, h, hemp]
  · unfold applyTopFields
    simp only [hgetD]
    repeat (first | constructor | rfl)

theorem c3_update_merge_witness :
    ∃ r : Repair, update_repair c3Repair c3PayloadGood = Except.ok r ∧
      r.location = some ("Miami") ∧ r.ticket = some ("T-1") := by
  obtain ⟨r, hok, hrest⟩ := c3_update_merge c3Repair c3PayloadGood (Or.inl rfl)
  refine ⟨r, hok, ?_, ?_⟩
  · rw [hrest.1]; rfl
  · rw [hrest.2.1]; rfl

/-- C5: `applyChecklistStates` silently skips submitted codes that match no
catalog item: the result only depends on the pairs whose code is known, and a
submission consisting entirely of unknown codes leaves the checklist rows of
the repair entirely unchanged (and raises no error — the function is total). -/
theorem c5_unknown_codes_skipped (items : List ChecklistItem) (repId now : Nat)
    (states : List (String × Bool)) (rows : List RepairChecklistRow) :
    upsert_repair_checklist items repId states now rows =
      upsert_repair_checklist items repId
        (states.filter (fun st => (byCodeGet items st.1).isSome)) now rows ∧
    ((∀ st ∈ states, byCodeGet items st.1 = none) →
      upsert_repair_checklist items repId states now rows = rows) := by
  constructor
  · induction states generalizing rows with
    | nil => rfl
    | cons st rest ih =>
        simp only [upsert_repair_checklist, List.foldl_cons, List.filter_cons]
        cases hb : byCodeGet items st.1 with
        | none =>
            simp only [Option.isSome_none, Bool.false_eq_true, if_false]
            exact ih rows
        | some item =>
            simp only [Option.isSome_some, if_true, List.foldl_cons, hb]
            exact ih (upsertOne repId now rows item.id st.2)
  · induction states generalizing rows with
    | nil => exact fun _ => rfl
    | cons st rest ih =>
        intro hall
        simp only [upsert_repair_checklist, List.foldl_cons,
          hall st (List.mem_cons_self st rest)]
        exact ih rows (fun x hx => hall x (List.mem_cons_of_mem st hx))

theorem c5_unknown_codes_skipped_witness :
    upsert_repair_checklist [itemA] 3 [(("ZZZ"), true)] 5 [] = [] := by
  have h := c5_unknown_codes_skipped [itemA] 3 5 [(("ZZZ"), true)] []
  exact h.2 (by decide)

theorem byCodeGet_map_active (g : ChecklistItem → Bool) (c : String)
    (l : List ChecklistItem) :
    byCodeGet (l.map (fun i => { i with active := g i })) c =
      Option.map (fun i => { i with active := g i }) (byCodeGet l c) := by
  have aux : ∀ (l : List ChecklistItem) (acc : Option ChecklistItem),
      (l.map (fun i => { i with active := g i })).foldl
          (fun acc i => bif i.code == c then some i else acc)
          (Option.map (fun i => { i with active := g i }) acc) =
        Option.map (fun i => { i with active := g i })
          (l.foldl (fun acc i => bif i.code == c then some i else acc) acc) := by
    intro l
    induction l with
    | nil => intro acc; rfl
    | cons i rest ih =>
        intro acc
        simp only [List.map_cons, List.foldl_cons]
        cases hc : (i.code == c) with
        | false => exact ih acc
        | true => exact ih (some i)
  simpa only [byCodeGet, Option.map_none'] using aux l none

/-- C10: the checklist upsert resolves submitted codes against the full
catalog and ignores the `active` flag entirely — flipping the flags of every
catalog item in any way whatsoever does not change the result of
`applyChecklistStates`, so an inactive item's join row is created/updated
exactly as an active item's would be — even though `listActiveChecklistItems`
never returns an inactive item. -/
theorem c10_inactive_items (items : List ChecklistItem) (g : ChecklistItem → Bool)
    (repId now : Nat) (states : List (String × Bool)) (rows : List RepairChecklistRow) :
    upsert_repair_checklist (items.map (fun i => { i with active := g i }))
        repId states now rows =
      upsert_repair_checklist items repId states now rows ∧
    (∀ i ∈ items, i.active = false → i ∉ get_checklist_items items) := by
  constructor
  · induction states generalizing rows with
    | nil => rfl
    | cons st rest ih =>
        simp only [upsert_repair_checklist, List.foldl_cons]
        rw [byCodeGet_map_active]
        cases hb : byCodeGet items st.1 with
        | none => exact ih rows
        | some item => exact ih (upsertOne repId now rows item.id st.2)
  · intro i hi hact hmem
    have hperm := List.perm_insertionSort sortOrderAsc (items.filter (fun j => j.active))
    simp only [get_checklist_items] at hmem
    have hmf := hperm.mem_iff.mp hmem
    have hactive := (List.mem_filter.mp hmf).2
    rw [hact] at hactive
    exact Bool.noConfusion hactive

theorem c10_inactive_items_witness :
    upsert_repair_checklist [itemA, itemB] 3 [(("B"), true)] 5 [] =
      [{ repair_id := 3, item_id := 2, checked := true, checked_at := some 5 }] ∧
    itemB ∉ get_checklist_items [itemA, itemB] := by
  have h := c10_inactive_items [itemA, itemB] (fun _ => false) 3 5 [(("B"), true)] []
  exact ⟨by decide, h.2 itemB (by decide) rfl⟩

/-- C9: calling `listRepairs` with the empty string for `hull_id`,
`date_from` and `date_to` applies no filter at all (Python truthiness treats
`""` like `None`): the result is identical to the unfiltered call and, when
the table fits in the limit, contains every repair of every vessel. -/
theorem c9_empty_string_filters (s : Store) (limit : Nat) :
    list_repairs s (some ("")) (some ("")) (some ("")) limit =
      list_repairs s none none none limit ∧
    (s.repairs.length ≤ limit →
      ∀ r ∈ s.repairs, r ∈ list_repairs s (some ("")) (some ("")) (some ("")) limit) := by
  constructor
  · rfl
  · intro hlen r hr
    simp only [list_repairs]
    have hfilter :
        s.repairs.filter (listFilterPred s.vessels (some ("")) (some ("")) (some (""))) =
          s.repairs := by
      rw [List.filter_eq_self]
      intro a _
      rfl
    rw [hfilter]
    have hperm := List.perm_insertionSort dateDesc s.repairs
    rw [List.take_of_length_le (by rw [hperm.length_eq]; exact hlen)]
    exact hperm.mem_iff.mpr hr

theorem c9_empty_string_filters_witness :
    c7RepJan ∈ list_repairs c7Store (some ("")) (some ("")) (some ("")) 50 := by
  have h := c9_empty_string_filters c7Store 50
  exact h.2 (by decide) c7RepJan (by decide)

theorem digitChar_isDigit_of_lt (n : Nat) (h : n < 10) :
    (Nat.digitChar n).isDigit = true := by
  have haux : ∀ k : Fin 10, (Nat.digitChar k.val).isDigit = true := by decide
  exact haux ⟨n, h⟩

theorem upperHex_of_lt (n : Nat) (h : n < 16) :
    isUpperHexChar (Char.toUpper (Nat.digitChar n)) = true := by
  have haux : ∀ k : Fin 16, isUpperHexChar (Char.toUpper (Nat.digitChar k.val)) = true := by
    decide
  exact haux ⟨n, h⟩

theorem isRepairUidFormat_new (y m d : Nat) (b0 b1 b2 : Fin 256) :
    isRepairUidFormat (new_repair_uid y m d [b0, b1, b2]) = true := by
  have hdata : (new_repair_uid y m d [b0, b1, b2]).data =
      'R' :: 'E' :: 'P' :: '-' ::
      Nat.digitChar (y / 1000 % 10) :: Nat.digitChar (y / 100 % 10) ::
      Nat.digitChar (y / 10 % 10) :: Nat.digitChar (y % 10) ::
      Nat.digitChar (m / 10 % 10) :: Nat.digitChar (m % 10) ::
      Nat.digitChar (d / 10 % 10) :: Nat.digitChar (d % 10) :: '-' ::
      Char.toUpper (Nat.digitChar (b0.val / 16)) ::
      Char.toUpper (Nat.digitChar (b0.val % 16)) ::
      Char.toUpper (Nat.digitChar (b1.val / 16)) ::
      Char.toUpper (Nat.digitChar (b1.val % 16)) ::
      Char.toUpper (Nat.digitChar (b2.val / 16)) ::
      Char.toUpper (Nat.digitChar (b2.val % 16)) :: [] := by
    simp [new_repair_uid, strUpper, token_hex, strftimeYmd, String.data_append]
  have hdig : ∀ n : Nat, (Nat.digitChar (n % 10)).isDigit = true :=
    fun n => digitChar_isDigit_of_lt _ (Nat.mod_lt _ (by decide))
  have hhexd : ∀ b : Fin 256, isUpperHexChar (Char.toUpper (Nat.digitChar (b.val / 16))) = true := by
    intro b
    refine upperHex_of_lt _ ?_
    have hb := b.isLt
    omega
  have hhexm : ∀ b : Fin 256, isUpperHexChar (Char.toUpper (Nat.digitChar (b.val % 16))) = true :=
    fun b => upperHex_of_lt _ (Nat.mod_lt _ (by decide))
  simp [isRepairUidFormat, hdata, hdig, hhexd, hhexm]

theorem create_repair_ok (s : Store) (p : RepairCreate) (y m d : Nat)
    (bs : List (Fin 256)) (r : Repair) (s2 : Store)
    (h : create_repair s p y m d bs = Except.ok (r, s2)) :
    r.repair_uid = new_repair_uid y m d bs ∧
    s2.repairs = s.repairs ++ [r] ∧
    (∀ x ∈ s.repairs, x.repair_uid ≠ new_repair_uid y m d bs) := by
  unfold create_repair at h
  split at h
  case isTrue hguard => exact absurd h (by simp)
  case isFalse hguard =>
    rw [Except.ok.injEq, Prod.mk.injEq] at h
    obtain ⟨hrep, hstore⟩ := h
    have hrepairs := goc_snd_repairs s p.hull_id
    refine ⟨?_, ?_, ?_⟩
    · rw [← hrep]; rfl
    · rw [← hstore, ← hrep]
      simpa using hrepairs
    · intro x hx heq
      apply hguard
      rw [List.any_eq_true]
      refine ⟨x, ?_, ?_⟩
      · rw [hrepairs]; exact hx
      · simpa using heq

/-- C4: every repair returned by `createRepair` carries a `repair_uid` in the
fixed format `REP-<YYYYMMDD>-<6 hex chars>`, and two successful `createRepair`
calls in sequence — even with identical payloads — return repairs with
distinct `repair_uid`s (the UNIQUE constraint on `repair_uid` makes a
colliding second insert fail instead of returning a duplicate). -/
theorem c4_repair_uid (s : Store) (p1 p2 : RepairCreate)
    (y1 m1 d1 y2 m2 d2 : Nat) (b10 b11 b12 b20 b21 b22 : Fin 256)
    {r1 r2 : Repair} {s1 s2 : Store}
    (h1 : create_repair s p1 y1 m1 d1 [b10, b11, b12] = Except.ok (r1, s1))
    (h2 : create_repair s1 p2 y2 m2 d2 [b20, b21, b22] = Except.ok (r2, s2)) :
    isRepairUidFormat r1.repair_uid = true ∧
    isRepairUidFormat r2.repair_uid = true ∧
    r1.repair_uid ≠ r2.repair_uid := by
  obtain ⟨huid1, hs1, _⟩ := create_repair_ok _ _ _ _ _ _ _ _ h1
  obtain ⟨huid2, _, hfresh⟩ := create_repair_ok _ _ _ _ _ _ _ _ h2
  refine ⟨?_, ?_, ?_⟩
  · rw [huid1]; exact isRepairUidFormat_new y1 m1 d1 b10 b11 b12
  · rw [huid2]; exact isRepairUidFormat_new y2 m2 d2 b20 b21 b22
  · have hmem : r1 ∈ s1.repairs := by
      rw [hs1]
      exact List.mem_append_right _ (List.mem_singleton.mpr rfl)
    rw [huid2]
    exact hfresh r1 hmem

theorem c4_repair_uid_witness :
    ∃ (r1 : Repair) (s1 : Store) (r2 : Repair) (s2 : Store),
      create_repair store0 c4Payload 2024 1 15 bytesA = Except.ok (r1, s1) ∧
      create_repair s1 c4Payload 2024 1 15 bytesB = Except.ok (r2, s2) ∧
      isRepairUidFormat r1.repair_uid = true ∧
      isRepairUidFormat r2.repair_uid = true ∧
      r1.repair_uid ≠ r2.repair_uid := by
  refine ⟨_, _, _, _, rfl, rfl, ?_⟩
  exact c4_repair_uid store0 c4Payload c4Payload 2024 1 15 2024 1 15
    10 188 95 0 0 0 rfl rfl

theorem charsLe_total : ∀ (a b : List Char), charsLe a b = true ∨ charsLe b a = true
  | [], _ => Or.inl rfl
  | _ :: _, [] => Or.inr rfl
  | a :: as, b :: bs => by
      simp only [charsLe]
      by_cases h1 : a.toNat < b.toNat
      · exact Or.inl (by rw [if_pos h1])
      · by_cases h2 : b.toNat < a.toNat
        · exact Or.inr (by rw [if_pos h2])
        · rw [if_neg h1, if_neg h2, if_neg h2, if_neg h1]
          exact charsLe_total as bs

theorem charsLe_trans : ∀ (a b c : List Char),
    charsLe a b = true → charsLe b c = true → charsLe a c = true
  | [], _, _, _, _ => rfl
  | _ :: _, [], _, h1, _ => by simp [charsLe] at h1
  | _ :: _, _ :: _, [], _, h2 => by simp [charsLe] at h2
  | a :: as, b :: bs, c :: cs, h1, h2 => by
      simp only [charsLe] at h1 h2 ⊢
      by_cases hab : a.toNat < b.toNat
      · by_cases hbc : b.toNat < c.toNat
        · rw [if_pos (show a.toNat < c.toNat by omega)]
        · rw [if_neg hbc] at h2
          by_cases hcb : c.toNat < b.toNat
          · rw [if_pos hcb] at h2
            exact absurd h2 (by simp)
          · rw [if_pos (show a.toNat < c.toNat by omega)]
      · rw [if_neg hab] at h1
        by_cases hba : b.toNat < a.toNat
        · rw [if_pos hba] at h1
          exact absurd h1 (by simp)
        · rw [if_neg hba] at h1
          by_cases hbc : b.toNat < c.toNat
          · rw [if_pos (show a.toNat < c.toNat by omega)]
          · rw [if_neg hbc] at h2
            by_cases hcb : c.toNat < b.toNat
            · rw [if_pos hcb] at h2
              exact absurd h2 (by simp)
            · rw [if_neg hcb] at h2
              rw [if_neg (show ¬ a.toNat < c.toNat by omega),
                if_neg (show ¬ c.toNat < a.toNat by omega)]
              exact charsLe_trans as bs cs h1 h2

/-- C7: `listRepairs` returns only repairs that satisfy every given filter —
hull id by exact match (via the vessel join), the date range inclusively on
both ends — ordered descending by open date, truncated to the result limit
(which defaults to 50 when the query parameter is absent); and it returns
every matching repair whenever the matching set fits within the limit. -/
theorem c7_list_repairs (s : Store) (hull date_from date_to : Option String)
    (lim : Option Nat) :
    (∀ r ∈ main_list_repairs s hull date_from date_to lim,
        r ∈ s.repairs ∧
        (∀ h, hull = some h → h ≠ "" → vesselHullMatch s.vessels h r = true) ∧
        (∀ a, date_from = some a → a ≠ "" → strLe a r.date_opened = true) ∧
        (∀ b, date_to = some b → b ≠ "" → strLe r.date_opened b = true)) ∧
    List.Sorted dateDesc (main_list_repairs s hull date_from date_to lim) ∧
    (main_list_repairs s hull date_from date_to lim).length ≤ lim.getD 50 ∧
    (∀ r ∈ s.repairs,
        listFilterPred s.vessels hull date_from date_to r = true →
        (s.repairs.filter (listFilterPred s.vessels hull date_from date_to)).length ≤
          lim.getD 50 →
        r ∈ main_list_repairs s hull date_from date_to lim) := by
  haveI htot : IsTotal Repair dateDesc := ⟨fun a b => charsLe_total _ _⟩
  haveI htrans : IsTrans Repair dateDesc :=
    ⟨fun _ _ _ hab hbc => charsLe_trans _ _ _ hbc hab⟩
  have hperm := List.perm_insertionSort dateDesc
    (s.repairs.filter (listFilterPred s.vessels hull date_from date_to))
  refine ⟨?_, ?_, ?_, ?_⟩
  · intro r hr
    have hr2 : r ∈ List.insertionSort dateDesc
        (s.repairs.filter (listFilterPred s.vessels hull date_from date_to)) :=
      (List.take_sublist _ _).mem hr
    have hr3 := hperm.mem_iff.mp hr2
    obtain ⟨hmem, hpred⟩ := List.mem_filter.mp hr3
    simp only [listFilterPred, Bool.and_eq_true] at hpred
    obtain ⟨⟨hhull, hdf⟩, hdt⟩ := hpred
    refine ⟨hmem, ?_, ?_, ?_⟩
    · intro h hh hne
      rw [hh] at hhull
      simp only [optFilter] at hhull
      rw [show (h == "") = false from beq_eq_false_iff_ne.mpr hne, cond_false] at hhull
      exact hhull
    · intro a ha hne
      rw [ha] at hdf
      simp only [optFilter] at hdf
      rw [show (a == "") = false from beq_eq_false_iff_ne.mpr hne, cond_false] at hdf
      exact hdf
    · intro b hb hne
      rw [hb] at hdt
      simp only [optFilter] at hdt
      rw [show (b == "") = false from beq_eq_false_iff_ne.mpr hne, cond_false] at hdt
      exact hdt
  · exact List.Pairwise.sublist (List.take_sublist _ _)
      (List.sorted_insertionSort dateDesc _)
  · simp only [main_list_repairs, list_repairs, List.length_take]
    exact inf_le_left
  · intro r hr hpred hlen
    have hmemf : r ∈ s.repairs.filter (listFilterPred s.vessels hull date_from date_to) :=
      List.mem_filter.mpr ⟨hr, hpred⟩
    simp only [main_list_repairs, list_repairs]
    rw [List.take_of_length_le (by rw [hperm.length_eq]; exact hlen)]
    exact hperm.mem_iff.mpr hmemf

theorem c7_list_repairs_witness :
    c7RepJan ∈ main_list_repairs c7Store none (some ("2024-01-01"))
      (some ("2024-01-31")) none ∧
    c7RepFeb ∉ main_list_repairs c7Store none (some ("2024-01-01"))
      (some ("2024-01-31")) none := by
  have h := c7_list_repairs c7Store none (some ("2024-01-01")) (some ("2024-01-31")) none
  constructor
  · exact h.2.2.2 c7RepJan (by decide) (by decide) (by decide)
  · intro hmem
    have hs := (h.1 c7RepFeb hmem).2.2.2 ("2024-01-31") rfl (by decide)
    exact absurd hs (by decide)

theorem byCodeGet_spec (items : List ChecklistItem) (c : String) (i : ChecklistItem)
    (h : byCodeGet items c = some i) : i.code = c ∧ i ∈ items := by
  have aux : ∀ (l : List ChecklistItem) (acc : Option ChecklistItem),
      l.foldl (fun acc j => bif j.code == c then some j else acc) acc = some i →
      (i.code = c ∧ i ∈ l) ∨ acc = some i := by
    intro l
    induction l with
    | nil => exact fun acc h2 => Or.inr h2
    | cons j rest ih =>
        intro acc h2
        rw [List.foldl_cons] at h2
        rcases ih _ h2 with hgood | hacc
        · exact Or.inl ⟨hgood.1, List.mem_cons_of_mem j hgood.2⟩
        · cases hc : (j.code == c) with
          | false =>
              rw [hc, cond_false] at hacc
              exact Or.inr hacc
          | true =>
              rw [hc, cond_true] at hacc
              injection hacc with hji
              subst hji
              exact Or.inl ⟨by simpa using hc, List.mem_cons_self _ _⟩
  rcases aux items none h with hgood | hbad
  · exact hgood
  · exact absurd hbad (by simp)

theorem upsertOne_hasPk_map (repId now iid : Nat) (b : Bool) (rid2 iid2 : Nat)
    (r : RepairChecklistRow) :
    hasPk rid2 iid2
        (bif hasPk repId iid r then
          { r with checked := b, checked_at := if b then some now else none }
        else r) = hasPk rid2 iid2 r := by
  cases hr : hasPk repId iid r with
  | false => rw [cond_false]
  | true => rw [cond_true]; rfl

theorem upsertOne_countP_self (repId now iid : Nat) (b : Bool)
    (rows : List RepairChecklistRow) (hc : rows.countP (hasPk repId iid) ≤ 1) :
    (upsertOne repId now rows iid b).countP (hasPk repId iid) = 1 := by
  unfold upsertOne
  split
  case isTrue hany =>
    rw [List.countP_map]
    have hcong : List.countP
        ((hasPk repId iid) ∘ fun r =>
          bif hasPk repId iid r then
            { r with checked := b, checked_at := if b then some now else none }
          else r) rows = List.countP (hasPk repId iid) rows :=
      List.countP_congr (fun a _ => by
        simpa [Function.comp] using upsertOne_hasPk_map repId now iid b repId iid a)
    rw [hcong]
    obtain ⟨x, hx, hpx⟩ := List.any_eq_true.mp hany
    have hpos : 0 < rows.countP (hasPk repId iid) :=
      List.countP_pos_iff.mpr ⟨x, hx, hpx⟩
    omega
  case isFalse hany =>
    rw [Bool.not_eq_true] at hany
    have h0 : rows.countP (hasPk repId iid) = 0 :=
      List.countP_eq_zero.mpr (List.any_eq_false.mp hany)
    rw [List.countP_append, h0]
    simp [List.countP_cons, hasPk]

theorem upsertOne_countP_other (repId now iid : Nat) (b : Bool)
    (rows : List RepairChecklistRow) (rid2 iid2 : Nat)
    (hne : ¬(rid2 = repId ∧ iid2 = iid)) :
    (upsertOne repId now rows iid b).countP (hasPk rid2 iid2) =
      rows.countP (hasPk rid2 iid2) := by
  unfold upsertOne
  split
  · rw [List.countP_map]
    exact List.countP_congr (fun a _ => by
      simpa [Function.comp] using upsertOne_hasPk_map repId now iid b rid2 iid2 a)
  · rw [List.countP_append]
    have hnew : hasPk rid2 iid2
        ({ repair_id := repId, item_id := iid, checked := b,
           checked_at := if b then some now else none } : RepairChecklistRow) = false := by
      rw [Bool.eq_false_iff]
      intro hcontra
      simp only [hasPk, Bool.and_eq_true, beq_iff_eq] at hcontra
      exact hne ⟨hcontra.1.symm, hcontra.2.symm⟩
    simp [List.countP_cons, hnew]

theorem upsertOne_self_vals (repId now iid : Nat) (b : Bool)
    (rows : List RepairChecklistRow) :
    ∀ r2 ∈ upsertOne repId now rows iid b, hasPk repId iid r2 = true →
      r2 = { repair_id := repId, item_id := iid, checked := b,
             checked_at := if b then some now else none } := by
  intro r2 hmem hpk
  unfold upsertOne at hmem
  split at hmem
  case isTrue hany =>
    obtain ⟨x, hx, hfx⟩ := List.mem_map.mp hmem
    cases hxpk : hasPk repId iid x with
    | false =>
        rw [hxpk, cond_false] at hfx
        rw [hfx] at hxpk
        exact absurd hpk (by rw [hxpk]; simp)
    | true =>
        rw [hxpk, cond_true] at hfx
        simp only [hasPk, Bool.and_eq_true, beq_iff_eq] at hxpk
        obtain ⟨h1, h2⟩ := hxpk
        rw [← hfx]
        cases x with
        | mk xr xi xc xt =>
            simp only at h1 h2
            simp [h1, h2]
  case isFalse hany =>
    rw [List.mem_append] at hmem
    rcases hmem with hin | hnew
    · rw [Bool.not_eq_true] at hany
      exact absurd hpk (List.any_eq_false.mp hany r2 hin)
    · simpa using hnew

theorem upsertOne_other_mem (repId now iid : Nat) (b : Bool)
    (rows : List RepairChecklistRow) (rid2 iid2 : Nat)
    (hne : ¬(rid2 = repId ∧ iid2 = iid)) :
    ∀ r2 ∈ upsertOne repId now rows iid b, hasPk rid2 iid2 r2 = true → r2 ∈ rows := by
  intro r2 hmem hpk
  unfold upsertOne at hmem
  split at hmem
  case isTrue hany =>
    obtain ⟨x, hx, hfx⟩ := List.mem_map.mp hmem
    cases hxpk : hasPk repId iid x with
    | false =>
        rw [hxpk, cond_false] at hfx
        rw [← hfx]
        exact hx
    | true =>
        rw [hxpk, cond_true] at hfx
        exfalso
        apply hne
        rw [← hfx] at hpk
        simp only [hasPk, Bool.and_eq_true, beq_iff_eq] at hpk hxpk
        exact ⟨by omega, by omega⟩
  case isFalse hany =>
    rw [List.mem_append] at hmem
    rcases hmem with hin | hnew
    · exact hin
    · exfalso
      apply hne
      have heq : r2 =
          ({ repair_id := repId, item_id := iid, checked := b,
             checked_at := if b then some now else none } : RepairChecklistRow) := by
        simpa using hnew
      rw [heq] at hpk
      simp only [hasPk, Bool.and_eq_true, beq_iff_eq] at hpk
      exact ⟨hpk.1.symm, hpk.2.symm⟩

theorem upsert_countP_le_one (items : List ChecklistItem) (repId now : Nat)
    (states : List (String × Bool)) :
    ∀ rows : List RepairChecklistRow,
      (∀ rid iid, rows.countP (hasPk rid iid) ≤ 1) →
      ∀ rid iid,
        (upsert_repair_checklist items repId states now rows).countP (hasPk rid iid) ≤ 1 := by
  induction states with
  | nil => exact fun rows hc => hc
  | cons st rest ih =>
      intro rows hc
      simp only [upsert_repair_checklist, List.foldl_cons]
      cases hb : byCodeGet items st.1 with
      | none => exact ih rows hc
      | some item =>
          refine ih _ ?_
          intro rid iid
          by_cases hp : rid = repId ∧ iid = item.id
          · obtain ⟨h1, h2⟩ := hp
            subst h1
            subst h2
            exact le_of_eq (upsertOne_countP_self _ _ _ _ rows (hc _ _))
          · rw [upsertOne_countP_other _ _ _ _ rows _ _ hp]
            exact hc rid iid

theorem upsert_frame (items : List ChecklistItem) (repId now rid2 iid2 : Nat)
    (states : List (String × Bool)) :
    ∀ rows : List RepairChecklistRow,
      (∀ st ∈ states, ∀ i, byCodeGet items st.1 = some i →
        ¬(rid2 = repId ∧ iid2 = i.id)) →
      (upsert_repair_checklist items repId states now rows).countP (hasPk rid2 iid2) =
        rows.countP (hasPk rid2 iid2) ∧
      (∀ r2 ∈ upsert_repair_checklist items repId states now rows,
        hasPk rid2 iid2 r2 = true → r2 ∈ rows) := by
  induction states with
  | nil => exact fun rows _ => ⟨rfl, fun r2 h _ => h⟩
  | cons st rest ih =>
      intro rows hother
      simp only [upsert_repair_checklist, List.foldl_cons]
      cases hb : byCodeGet items st.1 with
      | none => exact ih rows (fun x hx => hother x (List.mem_cons_of_mem st hx))
      | some item =>
          have hne := hother st (List.mem_cons_self st rest) item hb
          have hrest := ih (upsertOne repId now rows item.id st.2)
            (fun x hx => hother x (List.mem_cons_of_mem st hx))
          refine ⟨?_, ?_⟩
          · show List.countP (hasPk rid2 iid2)
                (upsert_repair_checklist items repId rest now
                  (upsertOne repId now rows item.id st.2)) =
              List.countP (hasPk rid2 iid2) rows
            rw [hrest.1]
            exact upsertOne_countP_other _ _ _ _ rows _ _ hne
          · show ∀ r2 ∈ upsert_repair_checklist items repId rest now
                (upsertOne repId now rows item.id st.2),
              hasPk rid2 iid2 r2 = true → r2 ∈ rows
            intro r2 hm hpk
            exact upsertOne_other_mem _ _ _ _ rows _ _ hne r2 (hrest.2 r2 hm hpk) hpk

/-- C2: for a submitted map whose codes are all present in the catalog (codes
pairwise distinct, as dict keys are; catalog item ids unique; the join table
holding at most one row per `(repair, item)` primary key, as the database
enforces), `applyChecklistStates` leaves exactly one join row per submitted
code — created on first submission, overwritten afterwards, never duplicated —
whose `checked` equals the submitted value and whose `checked_at` is the
current time when the value is true and null when it is false. -/
theorem c2_checklist_upsert (items : List ChecklistItem) (repId now : Nat)
    (states : List (String × Bool)) (rows : List RepairChecklistRow)
    (hids : (items.map ChecklistItem.id).Nodup)
    (hkeys : (states.map Prod.fst).Nodup)
    (hknown : ∀ st ∈ states, (byCodeGet items st.1).isSome = true)
    (hrows : ∀ rid iid, rows.countP (hasPk rid iid) ≤ 1) :
    ∀ st ∈ states, ∃ item, byCodeGet items st.1 = some item ∧
      (upsert_repair_checklist items repId states now rows).countP
        (hasPk repId item.id) = 1 ∧
      (∀ r2 ∈ upsert_repair_checklist items repId states now rows,
        hasPk repId item.id r2 = true →
        r2 = { repair_id := repId, item_id := item.id, checked := st.2,
               checked_at := if st.2 then some now else none }) := by
  intro st hst
  cases hb : byCodeGet items st.1 with
  | none =>
      have hk := hknown st hst
      rw [hb] at hk
      exact absurd hk (by simp)
  | some item =>
      refine ⟨item, rfl, ?_⟩
      obtain ⟨l1, l2, hsplit⟩ := List.append_of_mem hst
      subst hsplit
      have hfold : upsert_repair_checklist items repId (l1 ++ st :: l2) now rows =
          upsert_repair_checklist items repId l2 now
            (upsertOne repId now (upsert_repair_checklist items repId l1 now rows)
              item.id st.2) := by
        simp only [upsert_repair_checklist, List.foldl_append, List.foldl_cons, hb]
      rw [hfold]
      have hcA : ∀ rid iid,
          (upsert_repair_checklist items repId l1 now rows).countP (hasPk rid iid) ≤ 1 :=
        upsert_countP_le_one items repId now l1 rows hrows
      have hkey2 : ∀ x ∈ l2, x.1 ≠ st.1 := by
        intro x hx hcontra
        rw [List.map_append, List.map_cons, List.nodup_append] at hkeys
        have hcons := hkeys.2.1
        rw [List.nodup_cons] at hcons
        exact hcons.1 (hcontra ▸ List.mem_map_of_mem Prod.fst hx)
      have hother : ∀ x ∈ l2, ∀ i, byCodeGet items x.1 = some i →
          ¬(repId = repId ∧ item.id = i.id) := by
        intro x hx i hbi hcontra
        obtain ⟨hicode, himem⟩ := byCodeGet_spec items x.1 i hbi
        obtain ⟨hitemcode, hitemmem⟩ := byCodeGet_spec items st.1 item hb
        have hii : i = item :=
          List.inj_on_of_nodup_map hids himem hitemmem (by rw [← hcontra.2])
        rw [hii] at hicode
        exact hkey2 x hx (hicode.symm.trans hitemcode)
      have hframe := upsert_frame items repId now repId item.id l2
        (upsertOne repId now (upsert_repair_checklist items repId l1 now rows)
          item.id st.2) hother
      constructor
      · rw [hframe.1]
        exact upsertOne_countP_self repId now item.id st.2 _ (hcA repId item.id)
      · intro r2 hm hpk
        exact upsertOne_self_vals repId now item.id st.2 _ r2 (hframe.2 r2 hm hpk) hpk

theorem c2_checklist_upsert_witness :
    upsert_repair_checklist [itemA] 3 [(("A"), true)] 6
        (upsert_repair_checklist [itemA] 3 [(("A"), true)] 5 []) =
      [{ repair_id := 3, item_id := 1, checked := true, checked_at := some 6 }] ∧
    upsert_repair_checklist [itemA] 3 [(("A"), false)] 7
        [{ repair_id := 3, item_id := 1, checked := true, checked_at := some 6 }] =
      [{ repair_id := 3, item_id := 1, checked := false, checked_at := none }] ∧
    ∃ item, byCodeGet [itemA] ("A") = some item ∧
      (upsert_repair_checklist [itemA] 3 [(("A"), true)] 5 []).countP
        (hasPk 3 item.id) = 1 ∧
      (∀ r2 ∈ upsert_repair_checklist [itemA] 3 [(("A"), true)] 5 [],
        hasPk 3 item.id r2 = true →
        r2 = { repair_id := 3, item_id := item.id, checked := true,
               checked_at := if true then some 5 else none }) := by
  have h := c2_checklist_upsert [itemA] 3 5 [(("A"), true)] []
    (by decide) (by decide) (by decide) (fun _ _ => Nat.zero_le 1)
  exact ⟨by decide, by decide, h (("A"), true) (List.mem_singleton.mpr rfl)⟩

end Gen2Repair
